import Mathlib

/-!
Verification of the SAE_vis threshold-tree classification engine and Sankey
aggregator (backend/app/models/threshold_v2.py, backend/app/services/
split_evaluators.py, backend/app/services/classification.py,
backend/app/services/classification_v2.py).

Python floats are modelled as rationals (ℚ): every comparison performed by the
code is an order comparison, which transfers exactly.  Python dicts are
modelled as association lists looked up by first key occurrence.  A metric
value may be absent from a row or present-but-null; both are `none` after
`rowGet`, matching `dict.get(m)`.
-/

namespace SAEVis

abbrev MetricName := String
abbrev NodeId := String

/-- One feature row: Python dict of metric name → float-or-null.
A key absent from the list models a column absent from the row. -/
abbrev FeatureRow := List (MetricName × Option ℚ)

/-- Python `d[k]` lookup returning `none` when the key is absent
(first occurrence wins, as keys are unique in a Python dict). -/
def dictGet? {κ α : Type} [BEq κ] (d : List (κ × α)) (k : κ) : Option α :=
  (d.find? (fun kv => kv.1 == k)).map (·.2)

/-- Python `feature_row.get(m)`: `none` both when the key is absent and when
the stored value is null. -/
def rowGet (row : FeatureRow) (m : MetricName) : Option ℚ :=
  (dictGet? row m).getD none

/-- Python `children_ids.index(x)` wrapped in try/except: the index of `x`
when present, else the caller-supplied fallback. -/
def pyIndexD (xs : List String) (x : String) (fallback : ℕ) : ℕ :=
  if x ∈ xs then xs.indexOf x else fallback

-- ===========================================================================
-- Split rule data model (models/threshold_v2.py)
-- ===========================================================================

/-- `RangeSplitRule`: one metric plus ascending thresholds (the ascending-order
pydantic validator is modelled as a hypothesis where a claim needs it). -/
structure RangeSplitRule where
  metric : MetricName
  thresholds : List ℚ
  deriving Repr, DecidableEq

/-- `PatternCondition`: at most one of threshold / min+max / operator+value. -/
structure PatternCondition where
  threshold : Option ℚ := none
  min : Option ℚ := none
  max : Option ℚ := none
  operator : Option String := none
  value : Option ℚ := none
  deriving Repr, DecidableEq

/-- Qualitative metric state returned by `_evaluate_condition`
(the Python code uses the strings 'high' / 'low' / 'in_range' / 'out_range'). -/
inductive MState where
  | high
  | low
  | in_range
  | out_range
  deriving Repr, DecidableEq

/-- `Pattern`: match-map (a `none` value is a wildcard) plus target child. -/
structure Pattern where
  pmatch : List (MetricName × Option MState)
  child_id : NodeId
  deriving Repr, DecidableEq

/-- `PatternSplitRule`. -/
structure PatternSplitRule where
  conditions : List (MetricName × PatternCondition)
  patterns : List Pattern
  default_child_id : Option NodeId := none
  deriving Repr, DecidableEq

/-- `ExpressionBranch`: a condition string and the child chosen when true. -/
structure ExpressionBranch where
  condition : String
  child_id : NodeId
  deriving Repr, DecidableEq

/-- `ExpressionSplitRule`; `default_child_id` is mandatory. -/
structure ExpressionSplitRule where
  available_metrics : Option (List MetricName) := none
  branches : List ExpressionBranch
  default_child_id : NodeId
  deriving Repr, DecidableEq

/-- The `SplitRule` union. -/
inductive SplitRule where
  | range (r : RangeSplitRule)
  | pattern (p : PatternSplitRule)
  | expr (e : ExpressionSplitRule)
  deriving Repr, DecidableEq

/-- `EvaluationResult` (split_evaluators.py).  The display-only `split_info`
metadata (rule trace) is not needed by any claim and is omitted. -/
structure EvaluationResult where
  child_id : NodeId
  branch_index : ℕ
  triggering_values : List (MetricName × Option ℚ)
  deriving Repr, DecidableEq

-- ===========================================================================
-- SplitEvaluator.evaluate_range_split (split_evaluators.py lines 68-120)
-- ===========================================================================

/-- The scan loop of `evaluate_range_split`: `selected_range` becomes `i+1`
for each leading threshold with `value >= threshold`, stopping at the first
threshold the value is below. -/
def selected_range (value : ℚ) : List ℚ → ℕ
  | [] => 0
  | t :: ts => if t ≤ value then selected_range value ts + 1 else 0

/-- `evaluate_range_split`: missing/null metric value becomes `0.0`; the
selected range is clamped to the last child when it exceeds the children
count (the Python code indexes `children_ids[selected_range]`, which assumes
a nonempty children list; validation guarantees thresholds+1 children). -/
def evaluate_range_split (row : FeatureRow) (rule : RangeSplitRule)
    (children_ids : List NodeId) : EvaluationResult :=
  let value := (rowGet row rule.metric).getD 0
  let sel := selected_range value rule.thresholds
  let sel := if children_ids.length ≤ sel then children_ids.length - 1 else sel
  { child_id := children_ids.getD sel "unknown"
    branch_index := sel
    triggering_values := [(rule.metric, some value)] }

-- ===========================================================================
-- SplitEvaluator._apply_operator / _evaluate_condition (lines 285-330)
-- ===========================================================================

/-- `_apply_operator`.  Python raises ValueError on an operator outside the
six literals admitted by the pydantic model; that unreachable case is `false`
here. -/
def apply_operator (value : ℚ) (op : String) (threshold : ℚ) : Bool :=
  if op = ">" then decide (threshold < value)
  else if op = ">=" then decide (threshold ≤ value)
  else if op = "<" then decide (value < threshold)
  else if op = "<=" then decide (value ≤ threshold)
  else if op = "==" then decide (|value - threshold| < 1 / 1000000000)
  else if op = "!=" then decide (1 / 1000000000 ≤ |value - threshold|)
  else false

/-- `_evaluate_condition`: threshold first, then min+max, then a truthy
operator paired with a value; `none` when no criterion is set. -/
def evaluate_condition (value : ℚ) (c : PatternCondition) : Option MState :=
  match c.threshold with
  | some t => some (if t ≤ value then .high else .low)
  | none =>
    match c.min, c.max with
    | some mn, some mx =>
        some (if mn ≤ value ∧ value ≤ mx then .in_range else .out_range)
    | _, _ =>
      match c.operator, c.value with
      | some op, some v =>
          if op ≠ "" then
            some (if apply_operator value op v then .high else .low)
          else none
      | _, _ => none

-- ===========================================================================
-- SplitEvaluator.evaluate_pattern_split (lines 122-200, 332-353)
-- ===========================================================================

/-- The metric-state dict built by `evaluate_pattern_split`: one entry per
configured condition, `none` for a missing/null value. -/
def metric_states (row : FeatureRow) (conditions : List (MetricName × PatternCondition)) :
    List (MetricName × Option MState) :=
  conditions.map (fun mc =>
    (mc.1, match rowGet row mc.1 with
           | none => none
           | some v => evaluate_condition v mc.2))

/-- The triggering-values dict built alongside `metric_states`. -/
def pattern_triggering_values (row : FeatureRow)
    (conditions : List (MetricName × PatternCondition)) :
    List (MetricName × Option ℚ) :=
  conditions.map (fun mc => (mc.1, rowGet row mc.1))

/-- `_pattern_matches`: every non-wildcard entry of the match-map must equal
the computed state of that metric (`metric_states.get(metric)` is `none` for
a metric without an entry). -/
def pattern_matches (states : List (MetricName × Option MState))
    (pmatch : List (MetricName × Option MState)) : Bool :=
  pmatch.all (fun me =>
    match me.2 with
    | none => true
    | some expected => decide ((dictGet? states me.1).getD none = some expected))

/-- `evaluate_pattern_split`: first pattern (in declaration order) whose
match-map matches wins; with no match, a truthy `default_child_id` is used,
else the last child (`"unknown"` on an empty children list). -/
def evaluate_pattern_split (row : FeatureRow) (rule : PatternSplitRule)
    (children_ids : List NodeId) : EvaluationResult :=
  let states := metric_states row rule.conditions
  let trig := pattern_triggering_values row rule.conditions
  match rule.patterns.find? (fun p => pattern_matches states p.pmatch) with
  | some p =>
      { child_id := p.child_id
        branch_index := pyIndexD children_ids p.child_id 0
        triggering_values := trig }
  | none =>
      let child_id :=
        match rule.default_child_id with
        | some d => if d ≠ "" then d else children_ids.getLastD "unknown"
        | none => children_ids.getLastD "unknown"
      { child_id := child_id
        branch_index := pyIndexD children_ids child_id (children_ids.length - 1)
        triggering_values := trig }

-- ===========================================================================
-- SplitEvaluator.evaluate_expression_split (lines 202-283, 355-394)
-- ===========================================================================

/-- The triggering-values context of `evaluate_expression_split`: values of
the declared metrics via `feature_row.get(metric, 0.0)` (a present-but-null
value stays null), or, with no truthy `available_metrics`, every numeric
field of the row. -/
def expression_context (row : FeatureRow) (rule : ExpressionSplitRule) :
    List (MetricName × Option ℚ) :=
  match rule.available_metrics with
  | some ms =>
      if ms.isEmpty then row.filterMap (fun kv => kv.2.map (fun v => (kv.1, some v)))
      else ms.map (fun m => (m, (dictGet? row m).getD (some 0)))
  | none => row.filterMap (fun kv => kv.2.map (fun v => (kv.1, some v)))

/-- `evaluate_expression_split`, parameterised by the string-expression
evaluator `evalE` standing for `_evaluate_expression` (a Python `eval` on a
sandboxed namespace; it returns a boolean, with unparseable or failing
expressions yielding false — the surrounding try/except likewise turns any
error into "continue to next branch").  The first branch whose condition
evaluates true wins; otherwise the mandatory default child is selected. -/
def evaluate_expression_split
    (evalE : String → List (MetricName × Option ℚ) → Bool)
    (row : FeatureRow) (rule : ExpressionSplitRule)
    (children_ids : List NodeId) : EvaluationResult :=
  let trig := expression_context row rule
  match rule.branches.find? (fun b => evalE b.condition trig) with
  | some b =>
      { child_id := b.child_id
        branch_index := pyIndexD children_ids b.child_id 0
        triggering_values := trig }
  | none =>
      { child_id := rule.default_child_id
        branch_index := pyIndexD children_ids rule.default_child_id
          (children_ids.length - 1)
        triggering_values := trig }

/-- `SplitEvaluator.evaluate`: dispatch on the rule variant. -/
def evaluate (evalE : String → List (MetricName × Option ℚ) → Bool)
    (row : FeatureRow) (rule : SplitRule) (children_ids : List NodeId) :
    EvaluationResult :=
  match rule with
  | .range r => evaluate_range_split row r children_ids
  | .pattern p => evaluate_pattern_split row p children_ids
  | .expr e => evaluate_expression_split evalE row e children_ids

-- ===========================================================================
-- Node and structure model (models/threshold_v2.py lines 236-393)
-- ===========================================================================

/-- `ParentPathInfo` (only the fields validation and traversal inspect; the
rule-trace metadata is display-only). -/
structure ParentPathInfo where
  parent_id : NodeId
  branch_index : ℕ
  deriving Repr, DecidableEq

/-- `SankeyThreshold`: one tree node.  `category` is the open string
enumeration `CategoryType`. -/
structure SankeyThreshold where
  id : NodeId
  stage : ℕ
  category : String
  parent_path : List ParentPathInfo := []
  split_rule : Option SplitRule := none
  children_ids : List NodeId := []
  deriving Repr, DecidableEq

/-- `ThresholdStructure` (the flat node collection plus metric list). -/
structure ThresholdStructure where
  nodes : List SankeyThreshold
  metrics : List MetricName := []
  deriving Repr, DecidableEq

/-- The pydantic field validator `SankeyThreshold.validate_children_consistency`:
a RangeSplitRule needs exactly thresholds+1 children; pattern/expression rules
need every pattern/branch child (and a truthy default) among `children_ids`;
a node with no split rule must have no children. -/
def validate_children_consistency (n : SankeyThreshold) : Bool :=
  match n.split_rule with
  | some (.range r) => decide (n.children_ids.length = r.thresholds.length + 1)
  | some (.pattern p) =>
      (p.patterns.map (·.child_id)
        ++ (match p.default_child_id with
            | some d => if d ≠ "" then [d] else []
            | none => [])).all (fun c => c ∈ n.children_ids)
  | some (.expr e) =>
      (e.branches.map (·.child_id) ++ [e.default_child_id]).all
        (fun c => c ∈ n.children_ids)
  | none => n.children_ids.isEmpty

/-- The pydantic validator `ThresholdStructure.validate_structure`: exactly one
stage-0 node, every child reference resolves, and every node of stage > 0 has
a parent path whose length equals its stage (stage-0 nodes are exempt from
the parent-path check in the source). -/
def validate_structure (nodes : List SankeyThreshold) : Bool :=
  decide ((nodes.filter (fun n => n.stage == 0)).length = 1) &&
  nodes.all (fun n => n.children_ids.all (fun c => nodes.any (fun m => m.id == c))) &&
  nodes.all (fun n => n.stage == 0 || n.parent_path.length == n.stage)

/-- Constructing a `ThresholdStructure` from a node list: pydantic runs each
node's field validators when the node is built, the `min_items=1` constraint
on `nodes`, and then `validate_structure`; any failure raises a
ValidationError, which is the `Except.error` case here. -/
def mk_threshold_structure (nodes : List SankeyThreshold)
    (metrics : List MetricName) : Except String ThresholdStructure :=
  if ¬ nodes.all validate_children_consistency then
    .error "children_ids inconsistent with split_rule"
  else if nodes.isEmpty then
    .error "nodes: ensure this value has at least 1 items"
  else if ¬ validate_structure nodes then
    .error "invalid structure"
  else
    .ok { nodes := nodes, metrics := metrics }

/-- `ThresholdStructure.get_node_by_id`. -/
def get_node_by_id (nodes : List SankeyThreshold) (node_id : NodeId) :
    Option SankeyThreshold :=
  nodes.find? (fun n => n.id == node_id)

/-- `ThresholdStructure.get_root`: the first stage-0 node (Python raises
StopIteration when there is none, hence `Option`). -/
def get_root (ts : ThresholdStructure) : Option SankeyThreshold :=
  ts.nodes.find? (fun n => n.stage == 0)

-- ===========================================================================
-- ClassificationEngine._classify_single_feature
-- (classification.py lines 125-178 = classification_v2.py lines 109-162)
-- ===========================================================================

/-- The per-feature outcome: final node, path of visited node ids, and the
stage → node id dict (the `node_at_stage_X` columns).  The per-feature
`parent_path` list is also built by the source but dropped by
`classify_features`, so it is omitted here. -/
structure ClassificationOut where
  final_node_id : NodeId
  path : List NodeId
  stage_nodes : List (ℕ × NodeId)
  deriving Repr, DecidableEq

/-- Assignment `stage_nodes[stage] = node_id` on the stage dict: overwrite an
existing key, else append. -/
def stage_nodes_insert (sn : List (ℕ × NodeId)) (k : ℕ) (v : NodeId) :
    List (ℕ × NodeId) :=
  if sn.any (fun kv => kv.1 == k) then
    sn.map (fun kv => if kv.1 == k then (k, v) else kv)
  else sn ++ [(k, v)]

/-- The while loop of `_classify_single_feature`.  `fuel` bounds the number of
iterations; `none` marks fuel exhaustion, standing for the divergence the
Python loop exhibits on a cyclic structure.  A split-rule-free node ends the
walk; a selected child id absent from the structure is logged and the walk
stops at the current node. -/
def classify_loop (evalE : String → List (MetricName × Option ℚ) → Bool)
    (nodes : List SankeyThreshold) (row : FeatureRow) :
    ℕ → SankeyThreshold → List NodeId → List (ℕ × NodeId) →
    Option ClassificationOut
  | 0, _, _, _ => none
  | fuel + 1, cur, path, sn =>
    match cur.split_rule with
    | none => some ⟨cur.id, path, sn⟩
    | some rule =>
      let ev := evaluate evalE row rule cur.children_ids
      match get_node_by_id nodes ev.child_id with
      | none => some ⟨cur.id, path, sn⟩
      | some child =>
          classify_loop evalE nodes row fuel child (path ++ [child.id])
            (stage_nodes_insert sn child.stage child.id)

/-- `_classify_single_feature`: start at the root with its id recorded in the
path and in the stage dict. -/
def classify_single_feature (evalE : String → List (MetricName × Option ℚ) → Bool)
    (fuel : ℕ) (nodes : List SankeyThreshold) (root : SankeyThreshold)
    (row : FeatureRow) : Option ClassificationOut :=
  classify_loop evalE nodes row fuel root [root.id] [(root.stage, root.id)]

-- ===========================================================================
-- ClassificationEngine.classify_features
-- (classification.py lines 49-123 = classification_v2.py lines 39-107)
-- ===========================================================================

/-- One input row of the feature table: its `feature_id` column plus the
metric columns. -/
structure FeatureRecord where
  feature_id : ℕ
  metrics : FeatureRow
  deriving Repr, DecidableEq

/-- One row of the classified DataFrame produced by `classify_features`:
the original record joined with the classification columns (`none` when the
left join found no classification row, which cannot happen since every input
row is classified). -/
structure ClassifiedRow where
  record : FeatureRecord
  cls : Option ClassificationOut
  deriving Repr, DecidableEq

/-- The per-row loop of `classify_features` accumulating
`feature_classifications`; a feature whose walk diverges makes the whole call
diverge. -/
def build_classifications (evalE : String → List (MetricName × Option ℚ) → Bool)
    (fuel : ℕ) (nodes : List SankeyThreshold) (root : SankeyThreshold) :
    List FeatureRecord → Option (List (ℕ × ClassificationOut))
  | [] => some []
  | r :: rs =>
    match classify_single_feature evalE fuel nodes root r.metrics with
    | none => none
    | some c =>
      match build_classifications evalE fuel nodes root rs with
      | none => none
      | some cs => some ((r.feature_id, c) :: cs)

/-- The polars `df.join(classification_df, on=feature_id, how='left')`:
every left row is paired with every classification row sharing its
feature_id (and kept with null columns when there is none). -/
def join_left (df : List FeatureRecord) (cdf : List (ℕ × ClassificationOut)) :
    List ClassifiedRow :=
  df.flatMap (fun r =>
    let ms := cdf.filter (fun c => c.1 == r.feature_id)
    if ms.isEmpty then [⟨r, none⟩] else ms.map (fun c => ⟨r, some c.2⟩))

/-- `classify_features`: classify every row, then left-join the
classification columns back onto the input table on `feature_id`.
`none` covers the raising paths (no root) and divergence. -/
def classify_features (evalE : String → List (MetricName × Option ℚ) → Bool)
    (fuel : ℕ) (df : List FeatureRecord) (ts : ThresholdStructure) :
    Option (List ClassifiedRow) :=
  match get_root ts with
  | none => none
  | some root =>
    match build_classifications evalE fuel ts.nodes root df with
    | none => none
    | some cdf => some (join_left df cdf)

-- ===========================================================================
-- Sankey counting (classification.py lines 462-621, classification_v2.py
-- lines 219-288)
-- ===========================================================================

/-- The `node_at_stage_{stage}` column of one classified row: null when the
feature never reached that stage (or carries no classification at all). -/
def stage_node (r : ClassifiedRow) (stage : ℕ) : Option NodeId :=
  match r.cls with
  | none => none
  | some c => dictGet? c.stage_nodes stage

/-- `_count_unique_features_per_aggregated_node`, one stage at a time: filter
the rows whose stage column is non-null, map the node id through the
aggregation map, group by the aggregated id and count distinct feature ids
(`n_unique`).  The concrete aggregation map `_aggregate_node_id` (a regex
rewrite collapsing detailed score-agreement ids) is abstracted as `agg`: the
counting semantics hold for every id-mapping, and `agg = id` gives the
unaggregated grouping. -/
def unique_count_at (agg : NodeId → NodeId) (rows : List ClassifiedRow)
    (stage : ℕ) (a : NodeId) : ℕ :=
  (((rows.filter (fun r => decide ((stage_node r stage).map agg = some a))).map
    (fun r => r.record.feature_id)).dedup).length

/-- `_count_features_per_node` (classification_v2.py): group the stage column
and count rows (`.count()`), not distinct feature ids. -/
def count_features_at (rows : List ClassifiedRow) (stage : ℕ) (nid : NodeId) : ℕ :=
  (rows.filter (fun r => decide (stage_node r stage = some nid))).length

/-- `_count_aggregated_links` for one adjacent stage pair: rows with both
stage columns non-null, grouped by the aggregated (source, target) pair,
counting distinct feature ids. -/
def link_unique_count_at (agg : NodeId → NodeId) (rows : List ClassifiedRow)
    (stage : ℕ) (s t : NodeId) : ℕ :=
  (((rows.filter (fun r =>
      decide ((stage_node r stage).map agg = some s ∧
              (stage_node r (stage + 1)).map agg = some t))).map
    (fun r => r.record.feature_id)).dedup).length

/-- `_count_links` (classification_v2.py) for one adjacent stage pair: the
same grouping counting rows (`.count()`) instead of distinct feature ids. -/
def count_links_at (rows : List ClassifiedRow) (stage : ℕ) (s t : NodeId) : ℕ :=
  (rows.filter (fun r =>
    decide (stage_node r stage = some s ∧
            stage_node r (stage + 1) = some t))).length

/-- The aggregated target of each row reaching aggregated source `s` at
`stage` (with multiplicity); its `dedup` is the set of distinct targets the
source flows to. -/
def link_targets (agg : NodeId → NodeId) (rows : List ClassifiedRow)
    (stage : ℕ) (s : NodeId) : List NodeId :=
  rows.filterMap (fun r =>
    if (stage_node r stage).map agg = some s then
      (stage_node r (stage + 1)).map agg
    else none)

/-- The distinct aggregated (source, target) pairs present at one adjacent
stage pair — the keys of the group-by in `_count_aggregated_links`. -/
def link_pairs_at (agg : NodeId → NodeId) (rows : List ClassifiedRow)
    (stage : ℕ) : List (NodeId × NodeId) :=
  (rows.filterMap (fun r =>
    match (stage_node r stage).map agg, (stage_node r (stage + 1)).map agg with
    | some s, some t => some (s, t)
    | _, _ => none)).dedup

/-- The link-building step of `build_sankey_data`: every (source, target)
pair of every adjacent stage pair below `max_stage`, emitted with its count
whenever the count is positive. -/
def build_aggregated_links (agg : NodeId → NodeId) (rows : List ClassifiedRow)
    (max_stage : ℕ) : List (NodeId × NodeId × ℕ) :=
  (List.range max_stage).flatMap (fun stage =>
    (link_pairs_at agg rows stage).filterMap (fun st =>
      let c := link_unique_count_at agg rows stage st.1 st.2
      if 0 < c then some (st.1, st.2, c) else none))

-- ===========================================================================
-- Helper lemmas
-- ===========================================================================

lemma selected_range_le_length (v : ℚ) :
    ∀ ts : List ℚ, selected_range v ts ≤ ts.length
  | [] => by simp [selected_range]
  | t :: ts => by
    by_cases h : t ≤ v
    · simpa [selected_range, h] using selected_range_le_length v ts
    · simp [selected_range, h]

/-- On strictly ascending thresholds, the scan loop of `evaluate_range_split`
selects exactly the number of thresholds the value is ≥ to. -/
lemma selected_range_eq_countP (v : ℚ) :
    ∀ ts : List ℚ, ts.Pairwise (· < ·) →
      selected_range v ts = ts.countP (fun t => decide (t ≤ v))
  | [], _ => by simp [selected_range]
  | t :: ts, h => by
    rcases List.pairwise_cons.mp h with ⟨hlt, hts⟩
    by_cases hv : t ≤ v
    · rw [selected_range, if_pos hv, List.countP_cons, selected_range_eq_countP v ts hts]
      simp [hv]
    · rw [selected_range, if_neg hv, List.countP_cons]
      have hzero : ts.countP (fun t => decide (t ≤ v)) = 0 := by
        rw [List.countP_eq_zero]
        intro u hu
        have h1 : t < u := hlt u hu
        have h2 : v < t := lt_of_not_le hv
        simp only [decide_eq_true_eq]
        exact not_le.mpr (h2.trans h1)
      simp [hzero, hv]

lemma rowGet_single_zero (m : MetricName) : rowGet [(m, some 0)] m = some 0 := by
  simp [rowGet, dictGet?, List.find?]

-- ===========================================================================
-- C1 / C7: range-split evaluation
-- ===========================================================================

/-- C1: for a RangeSplitRule with strictly ascending thresholds, a present
metric value `v`, and a children list of length thresholds+1 (the validated
shape), the selected branch index equals the number of thresholds `t` with
`v ≥ t` (a value equal to a threshold goes to the higher branch), and the
selected child is `children_ids[branch_index]`; in particular, for thresholds
[0.1, 0.3, 0.6] and children [c0, c1, c2, c3], the values 0.05, 0.2, 0.5 and
0.8 select c0, c1, c2 and c3. -/
theorem C1_range_split_threshold_count
    (row : FeatureRow) (rule : RangeSplitRule) (children_ids : List NodeId) (v : ℚ)
    (hasc : rule.thresholds.Pairwise (· < ·))
    (hv : rowGet row rule.metric = some v)
    (hlen : children_ids.length = rule.thresholds.length + 1) :
    ((evaluate_range_split row rule children_ids).branch_index
        = rule.thresholds.countP (fun t => decide (t ≤ v)) ∧
      (evaluate_range_split row rule children_ids).child_id
        = children_ids.getD (rule.thresholds.countP (fun t => decide (t ≤ v))) "unknown") ∧
    (∀ x : ℚ,
      (x = 5/100 →
        (evaluate_range_split [("m", some x)] ⟨"m", [1/10, 3/10, 6/10]⟩
          ["c0", "c1", "c2", "c3"]).child_id = "c0") ∧
      (x = 2/10 →
        (evaluate_range_split [("m", some x)] ⟨"m", [1/10, 3/10, 6/10]⟩
          ["c0", "c1", "c2", "c3"]).child_id = "c1") ∧
      (x = 5/10 →
        (evaluate_range_split [("m", some x)] ⟨"m", [1/10, 3/10, 6/10]⟩
          ["c0", "c1", "c2", "c3"]).child_id = "c2") ∧
      (x = 8/10 →
        (evaluate_range_split [("m", some x)] ⟨"m", [1/10, 3/10, 6/10]⟩
          ["c0", "c1", "c2", "c3"]).child_id = "c3")) := by
  constructor
  · have hsel : selected_range v rule.thresholds ≤ rule.thresholds.length :=
      selected_range_le_length v rule.thresholds
    have hcnt := selected_range_eq_countP v rule.thresholds hasc
    have hnoclamp : ¬ (children_ids.length ≤ selected_range v rule.thresholds) := by
      omega
    simp only [evaluate_range_split, hv, Option.getD_some, if_neg hnoclamp]
    exact ⟨hcnt, by rw [hcnt]⟩
  · rintro x
    refine ⟨fun hx => ?_, fun hx => ?_, fun hx => ?_, fun hx => ?_⟩ <;> subst hx <;>
      norm_num [evaluate_range_split, rowGet, dictGet?, selected_range]

/-- Witness for C1 at value 0.2 against thresholds [0.1, 0.3, 0.6]. -/
theorem C1_witness :
    (evaluate_range_split [("m", some (2/10))] ⟨"m", [1/10, 3/10, 6/10]⟩
        ["c0", "c1", "c2", "c3"]).branch_index
      = List.countP (fun t => decide (t ≤ (2/10 : ℚ))) [1/10, 3/10, 6/10] :=
  (C1_range_split_threshold_count [("m", some (2/10))] ⟨"m", [1/10, 3/10, 6/10]⟩
    ["c0", "c1", "c2", "c3"] (2/10)
    (by norm_num) (by norm_num [rowGet, dictGet?, List.find?]) (by norm_num)).1.1

/-- Counterexample to C7 as stated: a RangeSplitRule whose (single, ascending)
threshold is negative routes a feature with a missing metric value to branch
1, not to the lowest branch, because the substituted 0.0 ranks above the
threshold. -/
theorem C7_counterexample :
    rowGet [] "m" = none ∧
    (evaluate_range_split [] ⟨"m", [-(1/2)]⟩ ["c0", "c1"]).branch_index = 1 := by
  constructor
  · rfl
  · norm_num [evaluate_range_split, rowGet, dictGet?, selected_range]

/-- C7 (amended): a feature whose metric value is absent or null is evaluated
exactly as if the value were 0.0 (the result, its recorded triggering value
included, coincides with evaluating a row holding an explicit 0.0), and it is
routed into the lowest branch (branch 0, first child) whenever every
threshold of the rule is strictly positive. -/
theorem C7_missing_value_as_zero
    (row : FeatureRow) (rule : RangeSplitRule) (children_ids : List NodeId)
    (hmiss : rowGet row rule.metric = none) :
    evaluate_range_split row rule children_ids
      = evaluate_range_split [(rule.metric, some 0)] rule children_ids ∧
    ((∀ t ∈ rule.thresholds, 0 < t) →
      (evaluate_range_split row rule children_ids).branch_index = 0 ∧
      (evaluate_range_split row rule children_ids).child_id
        = children_ids.getD 0 "unknown") := by
  have hzero : (rowGet row rule.metric).getD 0 = 0 := by rw [hmiss]; rfl
  constructor
  · simp only [evaluate_range_split, hzero, rowGet_single_zero, Option.getD_some]
  · intro hpos
    have hsel : selected_range 0 rule.thresholds = 0 := by
      cases hts : rule.thresholds with
      | nil => simp [selected_range]
      | cons t ts =>
        have ht : 0 < t := hpos t (by rw [hts]; exact List.mem_cons_self t ts)
        simp [selected_range, not_le.mpr ht]
    constructor <;>
      · simp only [evaluate_range_split, hzero, hsel]
        cases hc : children_ids <;> simp

/-- Witness for C7 (amended) on a row whose metric is present but null. -/
theorem C7_witness :
    evaluate_range_split [("m", none)] ⟨"m", [1/10]⟩ ["c0", "c1"]
      = evaluate_range_split [("m", some 0)] ⟨"m", [1/10]⟩ ["c0", "c1"] ∧
    (evaluate_range_split [("m", none)] ⟨"m", [1/10]⟩ ["c0", "c1"]).branch_index = 0 := by
  have h := C7_missing_value_as_zero [("m", none)] ⟨"m", [1/10]⟩ ["c0", "c1"]
    (by simp [rowGet, dictGet?, List.find?])
  exact ⟨h.1, (h.2 (by norm_num)).1⟩

-- ===========================================================================
-- C2: pattern-split evaluation
-- ===========================================================================

/-- The first element after a prefix of failures is the one `find?` returns. -/
lemma find?_append_first {α : Type} (q : α → Bool) :
    ∀ (ps1 : List α) (p : α) (ps2 : List α),
      (∀ x ∈ ps1, q x = false) → q p = true →
      (ps1 ++ p :: ps2).find? q = some p
  | [], p, ps2, _, hp => by simp [List.find?, hp]
  | a :: ps1, p, ps2, h, hp => by
    have ha : q a = false := h a (List.mem_cons_self a ps1)
    simp only [List.cons_append, List.find?, ha]
    exact find?_append_first q ps1 p ps2 (fun x hx => h x (List.mem_cons_of_mem a hx)) hp

/-- C2: a threshold condition yields `high` iff the value is ≥ the threshold
and `low` otherwise; a min/max condition yields `in_range` iff the value lies
in [min, max] and `out_range` otherwise; a missing metric value yields state
`none`; a pattern matches exactly when every non-wildcard entry of its
match-map equals the computed state of that metric; the first matching
pattern in declaration order is the one selected; and swapping two patterns
that both match a state combination changes the selected child. -/
theorem C2_pattern_split_states_and_first_match :
    (∀ (v t : ℚ) (c : PatternCondition), c.threshold = some t →
      evaluate_condition v c = some (if t ≤ v then .high else .low)) ∧
    (∀ (v mn mx : ℚ) (c : PatternCondition),
      c.threshold = none → c.min = some mn → c.max = some mx →
      evaluate_condition v c
        = some (if mn ≤ v ∧ v ≤ mx then .in_range else .out_range)) ∧
    (∀ (row : FeatureRow) (conds : List (MetricName × PatternCondition))
        (m : MetricName) (c : PatternCondition),
      (m, c) ∈ conds → rowGet row m = none →
      (m, (none : Option MState)) ∈ metric_states row conds) ∧
    (∀ (states pm : List (MetricName × Option MState)),
      pattern_matches states pm = true ↔
        ∀ me ∈ pm, ∀ e : MState, me.2 = some e →
          (dictGet? states me.1).getD none = some e) ∧
    (∀ (row : FeatureRow) (rule : PatternSplitRule) (children_ids : List NodeId)
        (ps1 : List Pattern) (p : Pattern) (ps2 : List Pattern),
      rule.patterns = ps1 ++ p :: ps2 →
      (∀ x ∈ ps1,
        pattern_matches (metric_states row rule.conditions) x.pmatch = false) →
      pattern_matches (metric_states row rule.conditions) p.pmatch = true →
      (evaluate_pattern_split row rule children_ids).child_id = p.child_id) ∧
    ((evaluate_pattern_split [("m", some 1)]
        ⟨[("m", { threshold := some (1/2) })],
          [⟨[("m", some .high)], "c1"⟩, ⟨[("m", none)], "c2"⟩], none⟩
        ["c1", "c2"]).child_id = "c1" ∧
      (evaluate_pattern_split [("m", some 1)]
        ⟨[("m", { threshold := some (1/2) })],
          [⟨[("m", none)], "c2"⟩, ⟨[("m", some .high)], "c1"⟩], none⟩
        ["c1", "c2"]).child_id = "c2") := by
  refine ⟨?_, ?_, ?_, ?_, ?_, ?_⟩
  · intro v t c ht
    simp [evaluate_condition, ht]
  · intro v mn mx c ht hmn hmx
    simp [evaluate_condition, ht, hmn, hmx]
  · intro row conds m c hmc hnone
    exact List.mem_map.mpr ⟨(m, c), hmc, by simp [hnone]⟩
  · intro states pm
    rw [pattern_matches, List.all_eq_true]
    constructor
    · intro h me hme e he
      have := h me hme
      rw [he] at this
      simpa using this
    · intro h me hme
      cases hcase : me.2 with
      | none => simp [hcase]
      | some e => simpa [hcase] using h me hme e hcase
  · intro row rule children_ids ps1 p ps2 hps hfail hp
    simp only [evaluate_pattern_split, hps,
      find?_append_first (fun x => pattern_matches (metric_states row rule.conditions) x.pmatch)
        ps1 p ps2 hfail hp]
  · constructor <;>
      norm_num [evaluate_pattern_split, metric_states, pattern_triggering_values,
        pattern_matches, evaluate_condition, rowGet, dictGet?, List.find?, pyIndexD]

/-- Witness for C2: the threshold condition at value 1 against threshold 0.5
computes state `high`. -/
theorem C2_witness :
    evaluate_condition 1 { threshold := some (1/2) } = some MState.high := by
  have h := C2_pattern_split_states_and_first_match.1 1 (1/2)
    { threshold := some (1/2) } rfl
  rw [h, if_pos (by norm_num)]

-- ===========================================================================
-- C9: default fallback for pattern and expression rules
-- ===========================================================================

/-- C9: a PatternSplitRule in which no pattern matches selects the declared
(non-empty) `default_child_id` when there is one and the last child
otherwise; an ExpressionSplitRule in which no branch condition evaluates true
selects the mandatory `default_child_id`; no other child is chosen. -/
theorem C9_default_fallback :
    (∀ (row : FeatureRow) (rule : PatternSplitRule) (children_ids : List NodeId),
      (∀ p ∈ rule.patterns,
        pattern_matches (metric_states row rule.conditions) p.pmatch = false) →
      (∀ d, rule.default_child_id = some d → d ≠ "" →
        (evaluate_pattern_split row rule children_ids).child_id = d) ∧
      (rule.default_child_id = none →
        (evaluate_pattern_split row rule children_ids).child_id
          = children_ids.getLastD "unknown")) ∧
    (∀ (evalE : String → List (MetricName × Option ℚ) → Bool)
        (row : FeatureRow) (rule : ExpressionSplitRule) (children_ids : List NodeId),
      (∀ b ∈ rule.branches, evalE b.condition (expression_context row rule) = false) →
      (evaluate_expression_split evalE row rule children_ids).child_id
        = rule.default_child_id) := by
  constructor
  · intro row rule children_ids hnone
    have hfind : rule.patterns.find?
        (fun p => pattern_matches (metric_states row rule.conditions) p.pmatch) = none :=
      List.find?_eq_none.mpr (fun p hp => by simp [hnone p hp])
    constructor
    · intro d hd hne
      simp only [evaluate_pattern_split, hfind, hd, if_pos hne]
    · intro hd
      simp only [evaluate_pattern_split, hfind, hd]
  · intro evalE row rule children_ids hnone
    have hfind : rule.branches.find?
        (fun b => evalE b.condition (expression_context row rule)) = none :=
      List.find?_eq_none.mpr (fun b hb => by simp [hnone b hb])
    simp only [evaluate_expression_split, hfind]

/-- Witness for C9: a non-matching pattern rule with declared default "dflt"
selects "dflt"; an expression rule under the always-false evaluator selects
its default. -/
theorem C9_witness :
    (evaluate_pattern_split [("m", some 0)]
        ⟨[("m", { threshold := some (1/2) })], [⟨[("m", some .high)], "c1"⟩],
          some "dflt"⟩ ["c1", "dflt"]).child_id = "dflt" ∧
    (evaluate_expression_split (fun _ _ => false) [("m", some 0)]
        ⟨none, [⟨"m > 0.5", "c1"⟩], "dflt"⟩ ["c1", "dflt"]).child_id = "dflt" := by
  constructor
  · refine ((C9_default_fallback.1 [("m", some 0)]
      ⟨[("m", { threshold := some (1/2) })], [⟨[("m", some .high)], "c1"⟩],
        some "dflt"⟩ ["c1", "dflt"] ?_).1) "dflt" rfl (by simp)
    intro p hp
    simp only [List.mem_singleton] at hp
    subst hp
    norm_num [pattern_matches, metric_states, evaluate_condition, rowGet, dictGet?,
      List.find?]
    decide
  · exact C9_default_fallback.2 (fun _ _ => false) [("m", some 0)]
      ⟨none, [⟨"m > 0.5", "c1"⟩], "dflt"⟩ ["c1", "dflt"] (fun b _ => rfl)

-- ===========================================================================
-- C6: construction-time validation
-- ===========================================================================

/-- Counterexample to C6 as stated: a node list whose only node has stage 0
but a parent_path of length 1 ≠ 0 is accepted by construction — the source's
`validate_structure` checks the parent-path length only for nodes of
stage > 0, so not every parent-path length mismatch is rejected. -/
theorem C6_counterexample :
    (mk_threshold_structure
      [{ id := "root", stage := 0, category := "root",
         parent_path := [⟨"ghost", 0⟩], split_rule := none, children_ids := [] }]
      []).isOk = true ∧
    ({ id := "root", stage := 0, category := "root",
       parent_path := [⟨"ghost", 0⟩], split_rule := none, children_ids := [] }
      : SankeyThreshold).parent_path.length ≠
    ({ id := "root", stage := 0, category := "root",
       parent_path := [⟨"ghost", 0⟩], split_rule := none, children_ids := [] }
      : SankeyThreshold).stage := by
  constructor
  · norm_num [mk_threshold_structure, validate_children_consistency, validate_structure,
      Except.isOk, Except.toBool]
  · simp

/-- C6 (amended): constructing a ThresholdStructure from a node list fails —
and never yields a traversable structure — whenever the list has zero or more
than one stage-0 node, or some children_ids entry resolves to no node id, or
some node of stage ≥ 1 has a parent_path whose length differs from its stage
(a stage-0 node's parent_path is not checked), or some RangeSplitRule node
does not have exactly thresholds+1 children, or some node without a split
rule has children. -/
theorem C6_validation_rejects_malformed
    (nodes : List SankeyThreshold) (metrics : List MetricName)
    (hbad :
      (nodes.filter (fun n => n.stage == 0)).length ≠ 1 ∨
      (∃ n ∈ nodes, ∃ c ∈ n.children_ids, ∀ m ∈ nodes, m.id ≠ c) ∨
      (∃ n ∈ nodes, 0 < n.stage ∧ n.parent_path.length ≠ n.stage) ∨
      (∃ n ∈ nodes, ∃ r, n.split_rule = some (.range r) ∧
        n.children_ids.length ≠ r.thresholds.length + 1) ∨
      (∃ n ∈ nodes, n.split_rule = none ∧ n.children_ids ≠ [])) :
    (mk_threshold_structure nodes metrics).isOk = false := by
  by_cases h1 : nodes.all validate_children_consistency = true
  case neg =>
    have h1' : ¬ (nodes.all validate_children_consistency = true) := h1
    simp [mk_threshold_structure, h1', Except.isOk, Except.toBool]
  by_cases h2 : nodes.isEmpty = true
  case neg =>
    by_cases h3 : validate_structure nodes = true
    case neg =>
      have h3' : ¬ (validate_structure nodes = true) := h3
      simp [mk_threshold_structure, h1, h2, h3', Except.isOk, Except.toBool]
    -- all three checks pass: each disjunct of hbad is contradictory
    exfalso
    have hchildren := List.all_eq_true.mp h1
    rw [validate_structure, Bool.and_eq_true, Bool.and_eq_true] at h3
    obtain ⟨⟨hroot, hresolve⟩, hpath⟩ := h3
    rcases hbad with hb | hb | hb | hb | hb
    · exact hb (by simpa using hroot)
    · obtain ⟨n, hn, c, hc, hnone⟩ := hb
      have := List.all_eq_true.mp (List.all_eq_true.mp hresolve n hn) c hc
      obtain ⟨m, hm, hmid⟩ := List.any_eq_true.mp this
      exact hnone m hm (by simpa using hmid)
    · obtain ⟨n, hn, hpos, hne⟩ := hb
      have := List.all_eq_true.mp hpath n hn
      have h' : n.stage = 0 ∨ n.parent_path.length = n.stage := by simpa using this
      rcases h' with h0 | hlen
      · omega
      · exact hne hlen
    · obtain ⟨n, hn, r, hr, hne⟩ := hb
      have := hchildren n hn
      rw [validate_children_consistency, hr] at this
      exact hne (by simpa using this)
    · obtain ⟨n, hn, hleaf, hne⟩ := hb
      have := hchildren n hn
      rw [validate_children_consistency, hleaf] at this
      exact hne (by simpa using this)
  case pos =>
    simp [mk_threshold_structure, h1, h2, Except.isOk, Except.toBool]

/-- Witness for C6 (amended): a two-node list with two stage-0 nodes is
rejected. -/
theorem C6_witness :
    (mk_threshold_structure
      [{ id := "a", stage := 0, category := "root" },
       { id := "b", stage := 0, category := "root" }] []).isOk = false := by
  refine C6_validation_rejects_malformed _ _ (Or.inl ?_)
  decide

-- ===========================================================================
-- C4 / C10: classification engine
-- ===========================================================================

lemma flatMap_ext {α β : Type} (f g : α → List β) :
    ∀ l : List α, (∀ x ∈ l, f x = g x) → l.flatMap f = l.flatMap g
  | [], _ => rfl
  | a :: l, h => by
    rw [List.flatMap_cons, List.flatMap_cons, h a (List.mem_cons_self a l),
      flatMap_ext f g l (fun x hx => h x (List.mem_cons_of_mem a hx))]

/-- A successful `build_classifications` pairs each input row, in order, with
its feature id and its standalone classification. -/
lemma build_classifications_spec
    (evalE : String → List (MetricName × Option ℚ) → Bool) (fuel : ℕ)
    (nodes : List SankeyThreshold) (root : SankeyThreshold) :
    ∀ df cdf, build_classifications evalE fuel nodes root df = some cdf →
      df.length = cdf.length ∧
      ∀ p ∈ df.zip cdf, p.2.1 = p.1.feature_id ∧
        classify_single_feature evalE fuel nodes root p.1.metrics = some p.2.2
  | [], cdf, h => by
    simp only [build_classifications, Option.some.injEq] at h
    subst h
    exact ⟨rfl, by simp⟩
  | r :: df, cdf, h => by
    rw [build_classifications] at h
    cases hc : classify_single_feature evalE fuel nodes root r.metrics with
    | none => rw [hc] at h; exact absurd h (by simp)
    | some c =>
      rw [hc] at h
      cases hb : build_classifications evalE fuel nodes root df with
      | none => rw [hb] at h; exact absurd h (by simp)
      | some cs =>
        rw [hb] at h
        simp only [Option.some.injEq] at h
        subst h
        obtain ⟨hl, hp⟩ := build_classifications_spec evalE fuel nodes root df cs hb
        refine ⟨by simpa using hl, ?_⟩
        intro p hpmem
        rw [List.zip_cons_cons, List.mem_cons] at hpmem
        rcases hpmem with hph | hpt
        · subst hph
          exact ⟨rfl, hc⟩
        · exact hp p hpt

/-- The feature-id column of a successful `build_classifications` equals the
input's feature-id column. -/
lemma build_classifications_keys
    (evalE : String → List (MetricName × Option ℚ) → Bool) (fuel : ℕ)
    (nodes : List SankeyThreshold) (root : SankeyThreshold) :
    ∀ df cdf, build_classifications evalE fuel nodes root df = some cdf →
      cdf.map Prod.fst = df.map (·.feature_id)
  | [], cdf, h => by
    simp only [build_classifications, Option.some.injEq] at h
    subst h
    rfl
  | r :: df, cdf, h => by
    rw [build_classifications] at h
    cases hc : classify_single_feature evalE fuel nodes root r.metrics with
    | none => rw [hc] at h; exact absurd h (by simp)
    | some c =>
      rw [hc] at h
      cases hb : build_classifications evalE fuel nodes root df with
      | none => rw [hb] at h; exact absurd h (by simp)
      | some cs =>
        rw [hb] at h
        simp only [Option.some.injEq] at h
        subst h
        simp only [List.map_cons]
        rw [build_classifications_keys evalE fuel nodes root df cs hb]

lemma filter_fst_eq_nil {cdf : List (ℕ × ClassificationOut)} {k : ℕ}
    (h : k ∉ cdf.map Prod.fst) : cdf.filter (fun x => x.1 == k) = [] := by
  rw [List.filter_eq_nil_iff]
  intro x hx
  simp only [beq_iff_eq]
  exact fun hk => h (hk ▸ List.mem_map_of_mem Prod.fst hx)

/-- With pairwise-distinct feature ids, the left join pairs every input row
with exactly its own classification. -/
lemma join_left_eq_map
    (evalE : String → List (MetricName × Option ℚ) → Bool) (fuel : ℕ)
    (nodes : List SankeyThreshold) (root : SankeyThreshold) :
    ∀ df cdf, build_classifications evalE fuel nodes root df = some cdf →
      (df.map (·.feature_id)).Nodup →
      join_left df cdf =
        df.map (fun r =>
          ⟨r, classify_single_feature evalE fuel nodes root r.metrics⟩)
  | [], cdf, h, _ => by
    simp only [build_classifications, Option.some.injEq] at h
    subst h
    rfl
  | r :: df, cdf, h, hnd => by
    rw [build_classifications] at h
    cases hc : classify_single_feature evalE fuel nodes root r.metrics with
    | none => rw [hc] at h; exact absurd h (by simp)
    | some c =>
      rw [hc] at h
      cases hb : build_classifications evalE fuel nodes root df with
      | none => rw [hb] at h; exact absurd h (by simp)
      | some cs =>
        rw [hb] at h
        simp only [Option.some.injEq] at h
        subst h
        rw [List.map_cons, List.nodup_cons] at hnd
        obtain ⟨hnotin, hnd2⟩ := hnd
        have hkeys : cs.map Prod.fst = df.map (·.feature_id) :=
          build_classifications_keys evalE fuel nodes root df cs hb
        have hms : ((r.feature_id, c) :: cs).filter (fun x => x.1 == r.feature_id)
            = [(r.feature_id, c)] := by
          rw [List.filter_cons, if_pos (by simp)]
          rw [filter_fst_eq_nil (by rw [hkeys]; exact hnotin)]
        rw [join_left, List.flatMap_cons]
        have hhead :
            (let ms := ((r.feature_id, c) :: cs).filter (fun x => x.1 == r.feature_id)
             if ms.isEmpty then [(⟨r, none⟩ : ClassifiedRow)]
             else ms.map (fun x => ⟨r, some x.2⟩)) = [⟨r, some c⟩] := by
          rw [hms]
          rfl
        rw [hhead]
        have htail : df.flatMap (fun rr =>
            let ms := ((r.feature_id, c) :: cs).filter (fun x => x.1 == rr.feature_id)
            if ms.isEmpty then [(⟨rr, none⟩ : ClassifiedRow)]
            else ms.map (fun x => ⟨rr, some x.2⟩)) = join_left df cs := by
          rw [join_left]
          refine flatMap_ext _ _ df (fun rr hrr => ?_)
          have hne : ¬ (r.feature_id == rr.feature_id) = true := by
            simp only [beq_iff_eq]
            intro hk
            exact hnotin (hk ▸ List.mem_map_of_mem (·.feature_id) hrr)
          rw [List.filter_cons, if_neg hne]
        rw [htail, join_left_eq_map evalE fuel nodes root df cs hb hnd2,
          List.map_cons, hc]
        rfl

/-- Counterexample to C4 as stated: a two-row table whose rows share the same
feature_id produces a four-row output — the left join after classification
multiplies duplicated feature ids, so the output does not have one row per
input row. -/
theorem C4_counterexample :
    (classify_features (fun _ _ => false) 1 [⟨1, []⟩, ⟨1, []⟩]
        ⟨[{ id := "root", stage := 0, category := "root" }], []⟩).map List.length
      = some 4 := by
  rfl

/-- C4 (amended): when the input rows carry pairwise-distinct feature_ids,
`classify_features` returns exactly one classified row per input row, in
input order, and the classification attached to each row is
`classify_single_feature` of that row's own metric values against the
structure — independent of row order and of the rest of the batch.  (With
duplicated feature_ids, the concluding left join on feature_id multiplies
rows.) -/
theorem C4_one_result_per_row
    (evalE : String → List (MetricName × Option ℚ) → Bool) (fuel : ℕ)
    (df : List FeatureRecord) (ts : ThresholdStructure)
    (out : List ClassifiedRow)
    (hids : (df.map (·.feature_id)).Nodup)
    (hout : classify_features evalE fuel df ts = some out) :
    out.length = df.length ∧
    ∃ root, get_root ts = some root ∧
      out = df.map (fun r =>
        ⟨r, classify_single_feature evalE fuel ts.nodes root r.metrics⟩) := by
  cases hroot : get_root ts with
  | none =>
    simp only [classify_features, hroot] at hout
    exact absurd hout (by simp)
  | some root =>
    simp only [classify_features, hroot] at hout
    cases hb : build_classifications evalE fuel ts.nodes root df with
    | none =>
      simp only [hb] at hout
      exact absurd hout (by simp)
    | some cdf =>
      simp only [hb, Option.some.injEq] at hout
      subst hout
      have hjoin := join_left_eq_map evalE fuel ts.nodes root df cdf hb hids
      rw [hjoin]
      exact ⟨by simp, root, rfl, rfl⟩

/-- Witness for C4 (amended) on a two-row table over a single leaf root. -/
theorem C4_witness :
    ([⟨⟨1, []⟩, some ⟨"root", ["root"], [(0, "root")]⟩⟩,
      ⟨⟨2, []⟩, some ⟨"root", ["root"], [(0, "root")]⟩⟩] : List ClassifiedRow).length
      = ([⟨1, []⟩, ⟨2, []⟩] : List FeatureRecord).length ∧
    ∃ root, get_root ⟨[{ id := "root", stage := 0, category := "root" }], []⟩ = some root ∧
      ([⟨⟨1, []⟩, some ⟨"root", ["root"], [(0, "root")]⟩⟩,
        ⟨⟨2, []⟩, some ⟨"root", ["root"], [(0, "root")]⟩⟩] : List ClassifiedRow)
        = ([⟨1, []⟩, ⟨2, []⟩] : List FeatureRecord).map (fun r =>
            ⟨r, classify_single_feature (fun _ _ => false) 1
              (⟨[{ id := "root", stage := 0, category := "root" }], []⟩ :
                ThresholdStructure).nodes root r.metrics⟩) :=
  C4_one_result_per_row (fun _ _ => false) 1 [⟨1, []⟩, ⟨2, []⟩]
    ⟨[{ id := "root", stage := 0, category := "root" }], []⟩
    [⟨⟨1, []⟩, some ⟨"root", ["root"], [(0, "root")]⟩⟩,
     ⟨⟨2, []⟩, some ⟨"root", ["root"], [(0, "root")]⟩⟩]
    (by decide) rfl

/-- C10: when the evaluator selects a child id that resolves to no node of
the structure, the walk stops at the current node — the final node is the
last resolvable node and the path and stage assignments accumulated so far
are returned unchanged — and, in a batch, every feature's classification is
its own standalone classification, so the other features are unaffected. -/
theorem C10_unresolvable_child_stops_at_node :
    (∀ (evalE : String → List (MetricName × Option ℚ) → Bool)
        (nodes : List SankeyThreshold) (row : FeatureRow) (fuel : ℕ)
        (cur : SankeyThreshold) (path : List NodeId)
        (sn : List (ℕ × NodeId)) (rule : SplitRule),
      cur.split_rule = some rule →
      get_node_by_id nodes (evaluate evalE row rule cur.children_ids).child_id = none →
      classify_loop evalE nodes row (fuel + 1) cur path sn = some ⟨cur.id, path, sn⟩) ∧
    (∀ (evalE : String → List (MetricName × Option ℚ) → Bool)
        (nodes : List SankeyThreshold) (row : FeatureRow) (fuel : ℕ)
        (root : SankeyThreshold) (rule : SplitRule),
      root.split_rule = some rule →
      get_node_by_id nodes (evaluate evalE row rule root.children_ids).child_id = none →
      classify_single_feature evalE (fuel + 1) nodes root row
        = some ⟨root.id, [root.id], [(root.stage, root.id)]⟩) ∧
    (∀ (evalE : String → List (MetricName × Option ℚ) → Bool) (fuel : ℕ)
        (nodes : List SankeyThreshold) (root : SankeyThreshold)
        (df : List FeatureRecord) (cdf : List (ℕ × ClassificationOut)),
      build_classifications evalE fuel nodes root df = some cdf →
      ∀ p ∈ df.zip cdf,
        classify_single_feature evalE fuel nodes root p.1.metrics = some p.2.2) := by
  have hstop : ∀ (evalE : String → List (MetricName × Option ℚ) → Bool)
      (nodes : List SankeyThreshold) (row : FeatureRow) (fuel : ℕ)
      (cur : SankeyThreshold) (path : List NodeId)
      (sn : List (ℕ × NodeId)) (rule : SplitRule),
      cur.split_rule = some rule →
      get_node_by_id nodes (evaluate evalE row rule cur.children_ids).child_id = none →
      classify_loop evalE nodes row (fuel + 1) cur path sn = some ⟨cur.id, path, sn⟩ := by
    intro evalE nodes row fuel cur path sn rule hrule hmiss
    rw [classify_loop]
    simp only [hrule, hmiss]
  refine ⟨hstop, ?_, ?_⟩
  · intro evalE nodes row fuel root rule hrule hmiss
    exact hstop evalE nodes row fuel root [root.id] [(root.stage, root.id)] rule hrule hmiss
  · intro evalE fuel nodes root df cdf hb p hp
    exact ((build_classifications_spec evalE fuel nodes root df cdf hb).2 p hp).2

/-- Witness for C10: a root whose range rule targets the children "lo"/"hi",
neither of which exists in the structure; the feature stops at the root with
its visit recorded. -/
theorem C10_witness :
    classify_single_feature (fun _ _ => false) 2
      [{ id := "root", stage := 0, category := "root",
         split_rule := some (.range ⟨"m", [2]⟩), children_ids := ["lo", "hi"] }]
      { id := "root", stage := 0, category := "root",
        split_rule := some (.range ⟨"m", [2]⟩), children_ids := ["lo", "hi"] }
      [("m", some 3)]
      = some ⟨"root", ["root"], [(0, "root")]⟩ :=
  C10_unresolvable_child_stops_at_node.2.1 (fun _ _ => false)
    [{ id := "root", stage := 0, category := "root",
       split_rule := some (.range ⟨"m", [2]⟩), children_ids := ["lo", "hi"] }]
    [("m", some 3)] 1
    { id := "root", stage := 0, category := "root",
      split_rule := some (.range ⟨"m", [2]⟩), children_ids := ["lo", "hi"] }
    (.range ⟨"m", [2]⟩) rfl
    (by
      norm_num [get_node_by_id, evaluate, evaluate_range_split, rowGet, dictGet?,
        selected_range, List.find?]
      decide)

-- ===========================================================================
-- C3 / C5 / C8: Sankey counting and links
-- ===========================================================================

lemma nodup_filter_map_fid (rows : List ClassifiedRow) (p : ClassifiedRow → Bool)
    (hnd : (rows.map (fun r => r.record.feature_id)).Nodup) :
    ((rows.filter p).map (fun r => r.record.feature_id)).Nodup :=
  hnd.sublist ((rows.filter_sublist).map _)

lemma dedup_filter_map_fid_length (rows : List ClassifiedRow) (p : ClassifiedRow → Bool)
    (hnd : (rows.map (fun r => r.record.feature_id)).Nodup) :
    (((rows.filter p).map (fun r => r.record.feature_id)).dedup).length
      = (rows.filter p).length := by
  rw [List.dedup_eq_self.mpr (nodup_filter_map_fid rows p hnd), List.length_map]

/-- Counterexample to C3 as stated: on a table in which one feature occupies
two duplicate rows, the v2 node counter `_count_features_per_node` reports 2
for the node the feature reaches — the row count, not the number of distinct
feature ids (which is 1). -/
theorem C3_counterexample :
    count_features_at
      [⟨⟨1, []⟩, some ⟨"root", ["root"], [(0, "root")]⟩⟩,
       ⟨⟨1, []⟩, some ⟨"root", ["root"], [(0, "root")]⟩⟩] 0 "root" = 2 ∧
    unique_count_at id
      [⟨⟨1, []⟩, some ⟨"root", ["root"], [(0, "root")]⟩⟩,
       ⟨⟨1, []⟩, some ⟨"root", ["root"], [(0, "root")]⟩⟩] 0 "root" = 1 := by
  constructor <;> rfl

/-- C3 (amended): the aggregated Sankey node counter of classification.py
counts, for every stage and node, the number of distinct feature ids reaching
that node at that stage — a feature appearing in several duplicate rows
contributes exactly 1, so prepending a copy of an existing row never changes
a count; the v2 builder (classification_v2.py) instead counts table rows. -/
theorem C3_unique_feature_counts
    (agg : NodeId → NodeId) (rows : List ClassifiedRow) (stage : ℕ) (a : NodeId) :
    unique_count_at agg rows stage a
      = ((rows.filter (fun r => decide ((stage_node r stage).map agg = some a))).map
          (fun r => r.record.feature_id)).toFinset.card ∧
    ∀ r ∈ rows, unique_count_at agg (r :: rows) stage a
      = unique_count_at agg rows stage a := by
  constructor
  · rw [unique_count_at, List.card_toFinset]
  · intro r hr
    rw [unique_count_at, unique_count_at, List.filter_cons]
    by_cases hp : (stage_node r stage).map agg = some a
    · rw [if_pos (decide_eq_true hp), List.map_cons,
        List.dedup_cons_of_mem
          (List.mem_map_of_mem (fun r => r.record.feature_id)
            (List.mem_filter.mpr ⟨hr, decide_eq_true hp⟩))]
    · rw [if_neg (fun h => hp (of_decide_eq_true h))]

/-- Witness for C3 (amended): duplicating the single row of a one-feature
table leaves the aggregated unique count at 1. -/
theorem C3_witness :
    unique_count_at id
      [⟨⟨7, []⟩, some ⟨"root", ["root"], [(0, "root")]⟩⟩,
       ⟨⟨7, []⟩, some ⟨"root", ["root"], [(0, "root")]⟩⟩] 0 "root"
      = unique_count_at id
      [⟨⟨7, []⟩, some ⟨"root", ["root"], [(0, "root")]⟩⟩] 0 "root" :=
  (C3_unique_feature_counts id
    [⟨⟨7, []⟩, some ⟨"root", ["root"], [(0, "root")]⟩⟩] 0 "root").2
    ⟨⟨7, []⟩, some ⟨"root", ["root"], [(0, "root")]⟩⟩ (List.mem_singleton.mpr rfl)

/-- Counterexample to C5 as stated: a one-feature table flowing root → a,
where the source "root" has exactly one distinct target, still produces the
emitted link ("root", "a", 1) — the builders emit a link for every
(source, target) pair with a positive count and never test how many distinct
targets the source has. -/
theorem C5_counterexample :
    build_aggregated_links id
      [⟨⟨1, []⟩, some ⟨"a", ["root", "a"], [(0, "root"), (1, "a")]⟩⟩] 1
      = [("root", "a", 1)] ∧
    ((link_targets id
      [⟨⟨1, []⟩, some ⟨"a", ["root", "a"], [(0, "root"), (1, "a")]⟩⟩] 0
      "root").dedup).length = 1 := by
  constructor <;> rfl

/-- C5 (amended): for each adjacent stage pair the aggregated link builder
emits a link for every (source, target) pair whose distinct-feature count is
positive — regardless of how many distinct targets the source has — and every
emitted link's value is the distinct-feature count of its pair; the v2 link
counter (classification_v2.py `_count_links`) instead counts rows, so a
duplicated feature row is counted twice there. -/
theorem C5_link_emission
    : (∀ (agg : NodeId → NodeId) (rows : List ClassifiedRow)
        (max_stage stage : ℕ) (s t : NodeId),
      stage < max_stage → 0 < link_unique_count_at agg rows stage s t →
      (s, t, link_unique_count_at agg rows stage s t)
        ∈ build_aggregated_links agg rows max_stage) ∧
    (∀ (agg : NodeId → NodeId) (rows : List ClassifiedRow) (max_stage : ℕ)
        (x : NodeId × NodeId × ℕ),
      x ∈ build_aggregated_links agg rows max_stage →
      ∃ stage, stage < max_stage ∧
        x.2.2 = link_unique_count_at agg rows stage x.1 x.2.1 ∧ 0 < x.2.2) ∧
    (count_links_at
        [⟨⟨1, []⟩, some ⟨"a", ["root", "a"], [(0, "root"), (1, "a")]⟩⟩,
         ⟨⟨1, []⟩, some ⟨"a", ["root", "a"], [(0, "root"), (1, "a")]⟩⟩]
        0 "root" "a" = 2 ∧
      link_unique_count_at id
        [⟨⟨1, []⟩, some ⟨"a", ["root", "a"], [(0, "root"), (1, "a")]⟩⟩,
         ⟨⟨1, []⟩, some ⟨"a", ["root", "a"], [(0, "root"), (1, "a")]⟩⟩]
        0 "root" "a" = 1) := by
  refine ⟨?_, ?_, by constructor <;> rfl⟩
  · intro agg rows max_stage stage s t hstage hpos
    have hfil : rows.filter (fun r =>
        decide ((stage_node r stage).map agg = some s ∧
                (stage_node r (stage + 1)).map agg = some t)) ≠ [] := by
      intro hnil
      rw [link_unique_count_at, hnil] at hpos
      simp at hpos
    obtain ⟨r, hrf⟩ := List.exists_mem_of_ne_nil _ hfil
    obtain ⟨hrmem, hdec⟩ := List.mem_filter.mp hrf
    obtain ⟨hs, ht⟩ := of_decide_eq_true hdec
    have hpair : (s, t) ∈ link_pairs_at agg rows stage := by
      rw [link_pairs_at, List.mem_dedup]
      refine List.mem_filterMap.mpr ⟨r, hrmem, ?_⟩
      rw [hs, ht]
    refine List.mem_flatMap.mpr ⟨stage, List.mem_range.mpr hstage, ?_⟩
    refine List.mem_filterMap.mpr ⟨(s, t), hpair, ?_⟩
    simp only [if_pos hpos]
  · intro agg rows max_stage x hx
    obtain ⟨stage, hst, hx2⟩ := List.mem_flatMap.mp hx
    obtain ⟨st, hstmem, heq⟩ := List.mem_filterMap.mp hx2
    by_cases hpos : 0 < link_unique_count_at agg rows stage st.1 st.2
    · rw [if_pos hpos] at heq
      obtain rfl : (st.1, st.2, link_unique_count_at agg rows stage st.1 st.2) = x :=
        Option.some.inj heq
      exact ⟨stage, List.mem_range.mp hst, rfl, hpos⟩
    · rw [if_neg hpos] at heq
      exact absurd heq (by simp)

/-- Witness for C5 (amended): the emitted link of the one-feature root → a
table is a member of the built link list. -/
theorem C5_witness :
    ("root", "a", link_unique_count_at id
      [⟨⟨1, []⟩, some ⟨"a", ["root", "a"], [(0, "root"), (1, "a")]⟩⟩] 0 "root" "a")
      ∈ build_aggregated_links id
        [⟨⟨1, []⟩, some ⟨"a", ["root", "a"], [(0, "root"), (1, "a")]⟩⟩] 1 :=
  C5_link_emission.1 id
    [⟨⟨1, []⟩, some ⟨"a", ["root", "a"], [(0, "root"), (1, "a")]⟩⟩]
    1 0 "root" "a" (by decide) (by decide)

lemma sum_toFinset_count_eq_length (l : List NodeId) :
    ∑ t ∈ l.toFinset, l.count t = l.length := by
  simp

/-- The multiplicity of `t` among a source's targets is the number of rows
flowing through the (s, t) pair. -/
lemma link_targets_count (agg : NodeId → NodeId) (stage : ℕ) (s t : NodeId) :
    ∀ rows : List ClassifiedRow,
      (link_targets agg rows stage s).count t
        = (rows.filter (fun r =>
            decide ((stage_node r stage).map agg = some s ∧
                    (stage_node r (stage + 1)).map agg = some t))).length
  | [] => rfl
  | r :: rows => by
    have tail := link_targets_count agg stage s t rows
    rw [link_targets] at tail
    by_cases hs : (stage_node r stage).map agg = some s
    · cases htgt : (stage_node r (stage + 1)).map agg with
      | none =>
        have hfr : (if (stage_node r stage).map agg = some s then
            (stage_node r (stage + 1)).map agg else none) = none := by
          rw [if_pos hs, htgt]
        rw [link_targets, List.filterMap_cons, hfr, List.filter_cons,
          if_neg (fun h => by
            have h2 := (of_decide_eq_true h).2
            rw [htgt] at h2
            exact Option.noConfusion h2)]
        exact tail
      | some t0 =>
        have hfr : (if (stage_node r stage).map agg = some s then
            (stage_node r (stage + 1)).map agg else none) = some t0 := by
          rw [if_pos hs, htgt]
        rw [link_targets, List.filterMap_cons, hfr, List.filter_cons]
        by_cases htt : t0 = t
        · rw [if_pos (decide_eq_true ⟨hs, by rw [htgt, htt]⟩), List.count_cons,
            List.length_cons, tail]
          simp [htt]
        · rw [if_neg (fun h => by
            have h2 := (of_decide_eq_true h).2
            rw [htgt] at h2
            exact htt (Option.some.inj h2)), List.count_cons, tail]
          simp [htt]
    · have hfr : (if (stage_node r stage).map agg = some s then
          (stage_node r (stage + 1)).map agg else none) = none := if_neg hs
      rw [link_targets, List.filterMap_cons, hfr, List.filter_cons,
        if_neg (fun h => hs (of_decide_eq_true h).1)]
      exact tail

/-- When every row reaching the source flows on to the next stage, the
source's multiset of targets has one entry per reaching row. -/
lemma link_targets_length (agg : NodeId → NodeId) (stage : ℕ) (s : NodeId) :
    ∀ rows : List ClassifiedRow,
      (∀ r ∈ rows, (stage_node r stage).map agg = some s →
        ((stage_node r (stage + 1)).map agg).isSome = true) →
      (link_targets agg rows stage s).length
        = (rows.filter (fun r =>
            decide ((stage_node r stage).map agg = some s))).length
  | [], _ => rfl
  | r :: rows, hflow => by
    have tail := link_targets_length agg stage s rows
      (fun x hx => hflow x (List.mem_cons_of_mem r hx))
    rw [link_targets] at tail
    by_cases hs : (stage_node r stage).map agg = some s
    · have hsome := hflow r (List.mem_cons_self r rows) hs
      cases htgt : (stage_node r (stage + 1)).map agg with
      | none => rw [htgt] at hsome; exact absurd hsome (by simp)
      | some t0 =>
        have hfr : (if (stage_node r stage).map agg = some s then
            (stage_node r (stage + 1)).map agg else none) = some t0 := by
          rw [if_pos hs, htgt]
        rw [link_targets, List.filterMap_cons, hfr, List.filter_cons,
          if_pos (decide_eq_true hs), List.length_cons, List.length_cons, tail]
    · have hfr : (if (stage_node r stage).map agg = some s then
          (stage_node r (stage + 1)).map agg else none) = none := if_neg hs
      rw [link_targets, List.filterMap_cons, hfr, List.filter_cons,
        if_neg (fun h => hs (of_decide_eq_true h))]
      exact tail

/-- C8: with one row per feature (pairwise-distinct feature ids) and every
feature reaching the source flowing on to some node of the next stage, the
sum of the aggregated link values out of a source node equals that node's
own unique feature count — no feature is lost or double-counted between a
node and the next stage. -/
theorem C8_outgoing_links_conserve_count
    (agg : NodeId → NodeId) (rows : List ClassifiedRow) (stage : ℕ) (s : NodeId)
    (hnd : (rows.map (fun r => r.record.feature_id)).Nodup)
    (hflow : ∀ r ∈ rows, (stage_node r stage).map agg = some s →
      ((stage_node r (stage + 1)).map agg).isSome = true) :
    ∑ t ∈ (link_targets agg rows stage s).toFinset,
      link_unique_count_at agg rows stage s t
      = unique_count_at agg rows stage s := by
  have h1 : ∀ t, link_unique_count_at agg rows stage s t
      = (link_targets agg rows stage s).count t := by
    intro t
    rw [link_unique_count_at, dedup_filter_map_fid_length rows _ hnd,
      link_targets_count]
  calc ∑ t ∈ (link_targets agg rows stage s).toFinset,
        link_unique_count_at agg rows stage s t
      = ∑ t ∈ (link_targets agg rows stage s).toFinset,
          (link_targets agg rows stage s).count t :=
        Finset.sum_congr rfl (fun t _ => h1 t)
    _ = (link_targets agg rows stage s).length :=
        sum_toFinset_count_eq_length _
    _ = (rows.filter (fun r =>
          decide ((stage_node r stage).map agg = some s))).length :=
        link_targets_length agg stage s rows hflow
    _ = unique_count_at agg rows stage s := by
        rw [unique_count_at, dedup_filter_map_fid_length rows _ hnd]

/-- Witness for C8: two features branching root → a and root → b; the two
outgoing link values 1 + 1 equal the root's unique feature count 2. -/
theorem C8_witness :
    ∑ t ∈ (link_targets id
      [⟨⟨1, []⟩, some ⟨"a", ["root", "a"], [(0, "root"), (1, "a")]⟩⟩,
       ⟨⟨2, []⟩, some ⟨"b", ["root", "b"], [(0, "root"), (1, "b")]⟩⟩] 0
      "root").toFinset,
      link_unique_count_at id
        [⟨⟨1, []⟩, some ⟨"a", ["root", "a"], [(0, "root"), (1, "a")]⟩⟩,
         ⟨⟨2, []⟩, some ⟨"b", ["root", "b"], [(0, "root"), (1, "b")]⟩⟩] 0 "root" t
      = unique_count_at id
        [⟨⟨1, []⟩, some ⟨"a", ["root", "a"], [(0, "root"), (1, "a")]⟩⟩,
         ⟨⟨2, []⟩, some ⟨"b", ["root", "b"], [(0, "root"), (1, "b")]⟩⟩] 0 "root" :=
  C8_outgoing_links_conserve_count id
    [⟨⟨1, []⟩, some ⟨"a", ["root", "a"], [(0, "root"), (1, "a")]⟩⟩,
     ⟨⟨2, []⟩, some ⟨"b", ["root", "b"], [(0, "root"), (1, "b")]⟩⟩] 0 "root"
    (by decide) (by decide)

end SAEVis
